import Mathlib

/-!
Shallow embedding of `scripts/train.py` from the `exceiver` repository.

The script is a straight-line orchestration procedure: it seeds the RNG with
the constant 2299, creates the logging directory, constructs an
`ExceiverDataModule` and calls `prepare_data` on it, condenses the parsed
arguments (setting `args.seq_len = dm.n_features` first), constructs one of
four model values (`Exceiver` fresh / loaded, `ExceiverClassifier` fresh /
loaded) depending on `args.classify` and the truthiness of `args.load`,
constructs a TensorBoard logger, an `EarlyStopping` callback, a
`ModelCheckpoint` callback, a `Trainer`, and finally calls `trainer.fit`.
The `if args.strategy == "ddp": pass` statement has an empty body and emits
no external call.

We model each external call as an event carrying exactly the arguments the
script passes to it.  External calls may raise: an environment `Env` assigns
to every call site an `Except String Unit` outcome, plus the two data values
the script reads back from the externals (`dm.n_features` and
`dm.val_adata.obs[col].nunique()`).  Running `main` yields the list of
events of the calls actually attempted, in program order, together with the
propagated outcome.
-/

namespace ExceiverTrain

/-- Scalar values of the flat argument mapping produced by argparse
(`vars(args)` in the script): strings, naturals, or Python `None`. -/
inductive Value where
  | str (s : String)
  | nat (n : Nat)
  | vnone
  deriving DecidableEq, Repr

/-- `Option String` rendered as an argparse scalar (`None` or a string). -/
def optV : Option String → Value
  | Option.none => Value.vnone
  | some s => Value.str s

/-- The parsed command-line arguments.  `name`, `logs`, `load` and
`strategy` are declared in the script itself; `classify` and `data_path`
are accessed by the script as attributes, so they must be contributed by
the external `add_argparse_args` calls; all remaining externally
contributed hyperparameters are kept abstract as the assoc list `hyper`. -/
structure Args where
  name : String
  logs : String
  load : Option String
  strategy : String
  classify : Option String
  data_path : String
  hyper : List (String × Value)
  deriving DecidableEq, Repr

/-- Python truthiness of an optional string: `None` and `""` are falsy. -/
def truthy : Option String → Bool
  | Option.none => false
  | some s => ! (s = "")

/-- The flat mapping `vars(args)` right after parsing. -/
def varsOf (a : Args) : List (String × Value) :=
  [("name", Value.str a.name),
   ("logs", Value.str a.logs),
   ("load", optV a.load),
   ("strategy", Value.str a.strategy),
   ("classify", optV a.classify),
   ("data_path", Value.str a.data_path)] ++ a.hyper

/-- Python `setattr` at the dict level: replace the binding of `k` if
present, otherwise append it. -/
def setAttr : List (String × Value) → String → Value → List (String × Value)
  | [], k, v => [(k, v)]
  | kv :: rest, k, v =>
      if kv.1 = k then (k, v) :: rest else kv :: setAttr rest k v

/-- The four model values the script can construct.  The loaded variants
carry only the checkpoint path, exactly as `load_from_checkpoint` receives
only `checkpoint_path`; the fresh variants carry the keyword dictionary
(and, for the classifier, the extra `classify_dim`). -/
inductive Model where
  | exceiverLoaded (path : String)
  | exceiverFresh (dict : List (String × Value))
  | classifierLoaded (path : String)
  | classifierFresh (classifyDim : Nat) (dict : List (String × Value))
  deriving DecidableEq, Repr

/-- Whether the model value is one of the two pure `Exceiver` variants. -/
def Model.isExceiverVariant : Model → Bool
  | Model.exceiverLoaded _ => true
  | Model.exceiverFresh _ => true
  | Model.classifierLoaded _ => false
  | Model.classifierFresh _ _ => false

/-- Whether the model value was restored from a checkpoint. -/
def Model.isLoaded : Model → Bool
  | Model.exceiverLoaded _ => true
  | Model.exceiverFresh _ => false
  | Model.classifierLoaded _ => true
  | Model.classifierFresh _ _ => false

/-- The data module value, as constructed by
`ExceiverDataModule(data_path=args.data_path, classify=args.classify)`
and enriched by `prepare_data` with its feature count. -/
structure DataModule where
  data_path : String
  classify : Option String
  n_features : Nat
  deriving DecidableEq, Repr

/-- Callback configurations the script builds. -/
inductive Callback where
  | earlyStopping (monitor : String) (minDelta : Rat) (patience : Nat)
      (verbose : Bool) (mode : String)
  | modelCheckpoint (monitor : String) (mode : String) (saveLast : Bool)
  deriving DecidableEq, Repr

/-- One external call made by the script, carrying the arguments passed. -/
inductive Event where
  | seed (n : Nat)
  | mkdir (p : String) (parents : Bool) (exist_ok : Bool)
  | dmInit (data_path : String) (classify : Option String)
  | dmPrepare
  | modelCons (m : Model)
  | loggerInit (save_dir : String) (version : String) (nm : String)
      (default_hp_metric : Bool)
  | callbackCons (c : Callback)
  | trainerInit (strategy : String) (devices : Nat)
      (callbacks : List Callback) (profiler : String)
  | fitCall (m : Model) (d : DataModule)
  deriving DecidableEq, Repr

/-- The fallible external call sites of the script, in program order. -/
inductive Site where
  | mkdir
  | dmInit
  | dmPrepare
  | model
  | logger
  | earlyStop
  | checkpoint
  | trainer
  | fit
  deriving DecidableEq, Repr

/-- Environment of the external world: the data the script reads back from
the data module, and the outcome (normal return or raised exception) of
each external call site. -/
structure Env where
  n_features : Nat
  nunique : String → Nat
  res : Site → Except String Unit

/-- `EarlyStopping(monitor="val_MSELoss", min_delta=1e-5, patience=10,
verbose=False, mode="min")`.  The decimal literal `1e-5` is modelled by the
exact rational it denotes. -/
def earlyStopCB : Callback :=
  Callback.earlyStopping "val_MSELoss" (mkRat 1 100000) 10 false "min"

/-- `ModelCheckpoint(monitor="val_MSELoss", mode="min", save_last=True)`. -/
def checkpointCB : Callback :=
  Callback.modelCheckpoint "val_MSELoss" "min" true

/-- The model value constructed by the `if args.classify is None` /
`if args.load` block of `main`, after `args.seq_len = dm.n_features` and
`dict_args = vars(args)`. -/
def constructedModel (env : Env) (a : Args) : Model :=
  let dict := setAttr (varsOf a) "seq_len" (Value.nat env.n_features)
  match a.classify with
  | Option.none =>
      if truthy a.load then Model.exceiverLoaded (a.load.getD "")
      else Model.exceiverFresh dict
  | some c =>
      if truthy a.load then Model.classifierLoaded (a.load.getD "")
      else Model.classifierFresh (env.nunique c) dict

/-- The data module value in scope when `trainer.fit(model, dm)` runs. -/
def theDM (env : Env) (a : Args) : DataModule :=
  { data_path := a.data_path, classify := a.classify,
    n_features := env.n_features }

/-- The straight line of fallible external calls of `main`, in program
order, each paired with the event describing the arguments passed.  Note
that the `if args.strategy == "ddp": pass` statement between the
checkpoint-callback construction and the `Trainer` construction contributes
nothing: its body is `pass`. -/
def calls (env : Env) (a : Args) : List (Site × Event) :=
  [(Site.mkdir, Event.mkdir a.logs true true),
   (Site.dmInit, Event.dmInit a.data_path a.classify),
   (Site.dmPrepare, Event.dmPrepare),
   (Site.model, Event.modelCons (constructedModel env a)),
   (Site.logger, Event.loggerInit a.logs a.name "lightning_logs" false),
   (Site.earlyStop, Event.callbackCons earlyStopCB),
   (Site.checkpoint, Event.callbackCons checkpointCB),
   (Site.trainer,
      Event.trainerInit a.strategy 1 [earlyStopCB, checkpointCB] "simple"),
   (Site.fit, Event.fitCall (constructedModel env a) (theDM env a))]

/-- Run a straight line of external calls: each call is attempted in order;
a raised exception aborts the run immediately and propagates unchanged. -/
def runCalls (env : Env) : List (Site × Event) → List Event × Except String Unit
  | [] => ([], Except.ok ())
  | se :: rest =>
    match env.res se.1 with
    | Except.error e => ([se.2], Except.error e)
    | Except.ok _ =>
      let p := runCalls env rest
      (se.2 :: p.1, p.2)

/-- The embedding of `main(args)`: `seed_everything(2299)` first, then the
straight line of external calls.  Returns the trace of attempted calls and
the propagated outcome. -/
def runMain (env : Env) (a : Args) : List Event × Except String Unit :=
  let p := runCalls env (calls env a)
  (Event.seed 2299 :: p.1, p.2)

/-- The full trace of a run on which no external call raises. -/
def fullTrace (env : Env) (a : Args) : List Event :=
  Event.seed 2299 :: (calls env a).map Prod.snd

/-- Event classifiers used to state the claims. -/
def Event.isModelCons : Event → Bool
  | Event.modelCons _ => true
  | _ => false

def Event.isFit : Event → Bool
  | Event.fitCall _ _ => true
  | _ => false

def Event.isTrainer : Event → Bool
  | Event.trainerInit _ _ _ _ => true
  | _ => false

/-- Coarse step kind of an event, matching the spec's step list. -/
inductive Kind where
  | seed
  | mkdir
  | dmInit
  | dmPrepare
  | modelCons
  | logger
  | callback
  | trainer
  | fit
  deriving DecidableEq, Repr

def Event.kind : Event → Kind
  | Event.seed _ => Kind.seed
  | Event.mkdir _ _ _ => Kind.mkdir
  | Event.dmInit _ _ => Kind.dmInit
  | Event.dmPrepare => Kind.dmPrepare
  | Event.modelCons _ => Kind.modelCons
  | Event.loggerInit _ _ _ _ => Kind.logger
  | Event.callbackCons _ => Kind.callback
  | Event.trainerInit _ _ _ _ => Kind.trainer
  | Event.fitCall _ _ => Kind.fit

/-- Erasure of the places where the strategy string itself is forwarded as
data: the `strategy` entry of the argument dictionary and the `strategy`
argument of the `Trainer` constructor.  Everything else is kept, so
`scrubEvent`-equality of two traces says they differ at most in those
forwarded strategy values. -/
def scrubDict (l : List (String × Value)) : List (String × Value) :=
  l.map fun kv => if kv.1 = "strategy" then ("strategy", Value.vnone) else kv

def scrubModel : Model → Model
  | Model.exceiverLoaded p => Model.exceiverLoaded p
  | Model.exceiverFresh d => Model.exceiverFresh (scrubDict d)
  | Model.classifierLoaded p => Model.classifierLoaded p
  | Model.classifierFresh n d => Model.classifierFresh n (scrubDict d)

def scrubEvent : Event → Event
  | Event.trainerInit _ dev cbs prof => Event.trainerInit "" dev cbs prof
  | Event.modelCons m => Event.modelCons (scrubModel m)
  | Event.fitCall m d => Event.fitCall (scrubModel m) d
  | ev => ev

/-- An environment in which every external call returns normally. -/
def okEnv : Env :=
  { n_features := 7, nunique := fun _ => 3, res := fun _ => Except.ok () }

/-- An environment in which the data-module constructor raises. -/
def failEnv : Env :=
  { n_features := 7, nunique := fun _ => 3,
    res := fun s => if s = Site.dmInit then Except.error "boom" else Except.ok () }

/-- A concrete parsed argument set (no checkpoint, no classification). -/
def baseArgs : Args :=
  { name := "exp", logs := "logs", load := Option.none, strategy := "ddp",
    classify := Option.none, data_path := "data.h5ad", hyper := [] }

/-- `baseArgs` with `--load` supplied as the empty string. -/
def emptyLoadArgs : Args :=
  { baseArgs with load := some "" }

/-- `baseArgs` with `--load` supplied as a nonempty checkpoint path. -/
def loadArgs : Args :=
  { baseArgs with load := some "ckpt.pt" }

/-! ### Basic lemmas about the runner -/

theorem runCalls_ok_iff (env : Env) (l : List (Site × Event)) :
    (runCalls env l).2 = Except.ok () ↔ ∀ se ∈ l, env.res se.1 = Except.ok () := by
  induction l with
  | nil => simp [runCalls]
  | cons se rest ih =>
    cases hr : env.res se.1 with
    | error e => simp [runCalls, hr]
    | ok u => cases u; simp [runCalls, hr, ih]

theorem runCalls_ok_trace (env : Env) (l : List (Site × Event))
    (h : (runCalls env l).2 = Except.ok ()) :
    (runCalls env l).1 = l.map Prod.snd := by
  induction l with
  | nil => simp [runCalls]
  | cons se rest ih =>
    cases hr : env.res se.1 with
    | error e => simp [runCalls, hr] at h
    | ok u =>
      simp only [runCalls, hr] at h ⊢
      simp [ih h]

theorem runCalls_trace_take (env : Env) (l : List (Site × Event)) :
    ∃ k, (runCalls env l).1 = (l.map Prod.snd).take k := by
  induction l with
  | nil => exact ⟨0, rfl⟩
  | cons se rest ih =>
    cases hr : env.res se.1 with
    | error e => exact ⟨1, by simp [runCalls, hr]⟩
    | ok u =>
      obtain ⟨k, hk⟩ := ih
      exact ⟨k + 1, by simp [runCalls, hr, hk]⟩

theorem runCalls_err (env : Env) (l : List (Site × Event)) (e : String)
    (h : (runCalls env l).2 = Except.error e) :
    ∃ se ∈ l, env.res se.1 = Except.error e := by
  induction l with
  | nil => simp [runCalls] at h
  | cons se rest ih =>
    cases hr : env.res se.1 with
    | error e2 =>
      simp [runCalls, hr] at h
      exact ⟨se, List.mem_cons_self se rest, by rw [hr, h]⟩
    | ok u =>
      simp only [runCalls, hr] at h
      obtain ⟨se2, hmem, he⟩ := ih h
      exact ⟨se2, List.mem_cons_of_mem se hmem, he⟩

theorem runMain_ok_trace (env : Env) (a : Args)
    (h : (runMain env a).2 = Except.ok ()) :
    (runMain env a).1 = fullTrace env a := by
  have h2 : (runCalls env (calls env a)).2 = Except.ok () := h
  have h3 := runCalls_ok_trace env (calls env a) h2
  show Event.seed 2299 :: (runCalls env (calls env a)).1 = fullTrace env a
  rw [h3]; rfl

theorem runMain_trace_take (env : Env) (a : Args) :
    ∃ k, (runMain env a).1 = (fullTrace env a).take k := by
  obtain ⟨k, hk⟩ := runCalls_trace_take env (calls env a)
  exact ⟨k + 1, by
    show Event.seed 2299 :: (runCalls env (calls env a)).1
        = (fullTrace env a).take (k + 1)
    rw [hk]; rfl⟩

theorem runCalls_congr (env : Env) (g : Event → Event) :
    ∀ l1 l2 : List (Site × Event),
      l1.map Prod.fst = l2.map Prod.fst →
      l1.map (fun se => g se.2) = l2.map (fun se => g se.2) →
      (runCalls env l1).2 = (runCalls env l2).2 ∧
        (runCalls env l1).1.map g = (runCalls env l2).1.map g := by
  intro l1
  induction l1 with
  | nil =>
    intro l2 h1 _
    cases l2 with
    | nil => exact ⟨rfl, rfl⟩
    | cons se2 rest2 => simp at h1
  | cons se rest ih =>
    intro l2 h1 h2
    cases l2 with
    | nil => simp at h1
    | cons se2 rest2 =>
      simp only [List.map_cons, List.cons.injEq] at h1 h2
      obtain ⟨hs, hrest⟩ := h1
      obtain ⟨hg, hgrest⟩ := h2
      cases hr : env.res se.1 with
      | error e =>
        have hr2 : env.res se2.1 = Except.error e := by rw [← hs]; exact hr
        simp [runCalls, hr, hr2, hg]
      | ok u =>
        cases u
        have hr2 : env.res se2.1 = Except.ok () := by rw [← hs]; exact hr
        have hih := ih rest2 hrest hgrest
        simp [runCalls, hr, hr2, hih.1, hih.2, hg]

/-- Up to the erasure of the forwarded strategy string, the constructed
model value does not depend on `args.strategy`. -/
theorem scrubModel_constructedModel (env : Env) (a : Args) (s s2 : String) :
    scrubModel (constructedModel env { a with strategy := s })
      = scrubModel (constructedModel env { a with strategy := s2 }) := by
  unfold constructedModel
  cases a.classify <;> cases h : truthy a.load <;>
    simp [scrubModel, scrubDict, varsOf, setAttr, h]

/-! ### Claims -/

/-- C1: for every parsed argument set, `main` constructs exactly one of the
two mutually exclusive model variants: a pure `Exceiver` when
`args.classify` is `None`, an `ExceiverClassifier` otherwise — never both
and never neither.  On any execution at most one model-construction call
occurs, and on every normally completing execution exactly one occurs, its
variant determined by `args.classify`. -/
theorem C1_model_variant_exclusive (env : Env) (a : Args) :
    ((runMain env a).1.filter Event.isModelCons).length ≤ 1 ∧
    ((runMain env a).2 = Except.ok () →
      (runMain env a).1.filter Event.isModelCons
        = [Event.modelCons (constructedModel env a)] ∧
      (constructedModel env a).isExceiverVariant = a.classify.isNone) := by
  constructor
  · obtain ⟨k, hk⟩ := runMain_trace_take env a
    rw [hk]
    have hsub : List.Sublist
        (((fullTrace env a).take k).filter Event.isModelCons)
        ((fullTrace env a).filter Event.isModelCons) :=
      List.Sublist.filter _ (List.take_sublist k _)
    have hlen := hsub.length_le
    have hfull : (fullTrace env a).filter Event.isModelCons
        = [Event.modelCons (constructedModel env a)] := by
      simp [fullTrace, calls, Event.isModelCons]
    rw [hfull] at hlen
    exact hlen
  · intro h
    rw [runMain_ok_trace env a h]
    refine ⟨by simp [fullTrace, calls, Event.isModelCons], ?_⟩
    unfold constructedModel
    cases ha : a.classify <;> cases hl : truthy a.load <;>
      simp [ha, hl, Model.isExceiverVariant]

/-- C1 witness at a concrete environment and argument set. -/
theorem C1_model_variant_exclusive_witness :
    (runMain okEnv baseArgs).1.filter Event.isModelCons
      = [Event.modelCons (constructedModel okEnv baseArgs)] ∧
    (constructedModel okEnv baseArgs).isExceiverVariant
      = baseArgs.classify.isNone :=
  (C1_model_variant_exclusive okEnv baseArgs).2 (by rfl)

/-- C3: every execution performs the script's steps in the fixed order
seed → mkdir → data-module init → prepare → model → logger → callbacks →
trainer → fit: the trace of any execution is a prefix of that canonical
sequence (proper only when an external call raises), and a normally
completing execution performs exactly the whole sequence, no step skipped,
repeated, or reordered. -/
theorem C3_fixed_step_order (env : Env) (a : Args) :
    (∃ k, (runMain env a).1 = (fullTrace env a).take k) ∧
    ((runMain env a).2 = Except.ok () →
      (runMain env a).1.map Event.kind
        = [Kind.seed, Kind.mkdir, Kind.dmInit, Kind.dmPrepare, Kind.modelCons,
           Kind.logger, Kind.callback, Kind.callback, Kind.trainer, Kind.fit]) := by
  refine ⟨runMain_trace_take env a, fun h => ?_⟩
  rw [runMain_ok_trace env a h]
  simp [fullTrace, calls, Event.kind]

/-- C3 witness at a concrete environment and argument set. -/
theorem C3_fixed_step_order_witness :
    (runMain okEnv baseArgs).1.map Event.kind
      = [Kind.seed, Kind.mkdir, Kind.dmInit, Kind.dmPrepare, Kind.modelCons,
         Kind.logger, Kind.callback, Kind.callback, Kind.trainer, Kind.fit] :=
  (C3_fixed_step_order okEnv baseArgs).2 (by rfl)

/-- C6: the script contains no failure handling of its own: whenever
running `main` ends in an error, that error is exactly the exception some
external call site raised — nothing is caught, transformed, retried, or
recovered. -/
theorem C6_errors_propagate (env : Env) (a : Args) (e : String)
    (h : (runMain env a).2 = Except.error e) :
    ∃ s : Site, env.res s = Except.error e := by
  have h2 : (runCalls env (calls env a)).2 = Except.error e := h
  obtain ⟨se, _, he⟩ := runCalls_err env (calls env a) e h2
  exact ⟨se.1, he⟩

/-- C6 witness: an environment whose data-module constructor raises. -/
theorem C6_errors_propagate_witness :
    ∃ s : Site, failEnv.res s = Except.error "boom" :=
  C6_errors_propagate failEnv baseArgs "boom" (by rfl)

/-- C7: the RNG is seeded with the constant 2299 as the very first action,
before any data module or model is constructed, and independently of the
environment and of every command-line argument: any two runs start with
the identical seeding call. -/
theorem C7_constant_seed (env env2 : Env) (a a2 : Args) :
    (runMain env a).1.head? = some (Event.seed 2299) ∧
    (runMain env a).1.head? = (runMain env2 a2).1.head? :=
  ⟨rfl, rfl⟩

/-- C4: the trainer is constructed with exactly two callbacks, in order: an
early-stopping callback monitoring "val_MSELoss" in "min" mode with
min_delta 1e-5 and patience 10, and a model-checkpoint callback monitoring
"val_MSELoss" in "min" mode with save_last enabled. -/
theorem C4_trainer_two_callbacks (env : Env) (a : Args)
    (h : (runMain env a).2 = Except.ok ()) :
    (runMain env a).1.filter Event.isTrainer
      = [Event.trainerInit a.strategy 1
          [Callback.earlyStopping "val_MSELoss" (mkRat 1 100000) 10 false "min",
           Callback.modelCheckpoint "val_MSELoss" "min" true] "simple"] := by
  rw [runMain_ok_trace env a h]
  simp [fullTrace, calls, Event.isTrainer, earlyStopCB, checkpointCB]

/-- C4 witness at a concrete environment and argument set. -/
theorem C4_trainer_two_callbacks_witness :
    (runMain okEnv baseArgs).1.filter Event.isTrainer
      = [Event.trainerInit baseArgs.strategy 1
          [Callback.earlyStopping "val_MSELoss" (mkRat 1 100000) 10 false "min",
           Callback.modelCheckpoint "val_MSELoss" "min" true] "simple"] :=
  C4_trainer_two_callbacks okEnv baseArgs (by rfl)

/-- C5: the training loop is fully delegated: on any execution at most one
fit call occurs, and on a normally completing execution exactly one occurs,
receiving the constructed model and the constructed data module. -/
theorem C5_single_fit_delegation (env : Env) (a : Args) :
    ((runMain env a).1.filter Event.isFit).length ≤ 1 ∧
    ((runMain env a).2 = Except.ok () →
      (runMain env a).1.filter Event.isFit
        = [Event.fitCall (constructedModel env a) (theDM env a)] ∧
      Event.modelCons (constructedModel env a) ∈ (runMain env a).1 ∧
      Event.dmInit (theDM env a).data_path (theDM env a).classify
        ∈ (runMain env a).1) := by
  constructor
  · obtain ⟨k, hk⟩ := runMain_trace_take env a
    rw [hk]
    have hsub : List.Sublist
        (((fullTrace env a).take k).filter Event.isFit)
        ((fullTrace env a).filter Event.isFit) :=
      List.Sublist.filter _ (List.take_sublist k _)
    have hlen := hsub.length_le
    have hfull : (fullTrace env a).filter Event.isFit
        = [Event.fitCall (constructedModel env a) (theDM env a)] := by
      simp [fullTrace, calls, Event.isFit]
    rw [hfull] at hlen
    exact hlen
  · intro h
    rw [runMain_ok_trace env a h]
    refine ⟨by simp [fullTrace, calls, Event.isFit], ?_, ?_⟩
    · simp [fullTrace, calls]
    · simp [fullTrace, calls, theDM]

/-- C5 witness at a concrete environment and argument set. -/
theorem C5_single_fit_delegation_witness :
    ((runMain okEnv baseArgs).1.filter Event.isFit).length ≤ 1 ∧
    (runMain okEnv baseArgs).1.filter Event.isFit
      = [Event.fitCall (constructedModel okEnv baseArgs)
          (theDM okEnv baseArgs)] :=
  ⟨(C5_single_fit_delegation okEnv baseArgs).1,
   ((C5_single_fit_delegation okEnv baseArgs).2 (by rfl)).1⟩

/-- C2 counterexample: the script does not pass the parsed argument
mapping through unchanged — it executes `args.seq_len = dm.n_features`
before `dict_args = vars(args)`, so the dictionary handed to the model
constructor contains a `seq_len` entry that was not among the parsed
arguments. -/
theorem C2_cex :
    (runMain okEnv baseArgs).2 = Except.ok () ∧
    (runMain okEnv baseArgs).1.filter Event.isModelCons
      = [Event.modelCons (Model.exceiverFresh
          (varsOf baseArgs ++ [("seq_len", Value.nat 7)]))] ∧
    varsOf baseArgs ++ [("seq_len", Value.nat 7)] ≠ varsOf baseArgs ∧
    (varsOf baseArgs).lookup "seq_len" = Option.none :=
  ⟨rfl, by decide, by decide, by decide⟩

/-- C2 (amended): arguments and paths are passed through unchanged to the
directory creation, the data module, the logger, and the trainer; the
dictionary handed to a freshly constructed model is the parsed mapping
with exactly one change: `seq_len` set to the data module's feature count
(and the classifier constructor additionally receives a `classify_dim`
computed from the data). -/
theorem C2_args_passthrough (env : Env) (a : Args)
    (h : (runMain env a).2 = Except.ok ()) :
    Event.mkdir a.logs true true ∈ (runMain env a).1 ∧
    Event.dmInit a.data_path a.classify ∈ (runMain env a).1 ∧
    Event.loggerInit a.logs a.name "lightning_logs" false ∈ (runMain env a).1 ∧
    Event.trainerInit a.strategy 1 [earlyStopCB, checkpointCB] "simple"
      ∈ (runMain env a).1 ∧
    (truthy a.load = false → a.classify = Option.none →
      Event.modelCons (Model.exceiverFresh
        (setAttr (varsOf a) "seq_len" (Value.nat env.n_features)))
        ∈ (runMain env a).1) ∧
    (truthy a.load = false → ∀ c, a.classify = some c →
      Event.modelCons (Model.classifierFresh (env.nunique c)
        (setAttr (varsOf a) "seq_len" (Value.nat env.n_features)))
        ∈ (runMain env a).1) := by
  rw [runMain_ok_trace env a h]
  refine ⟨by simp [fullTrace, calls], by simp [fullTrace, calls],
    by simp [fullTrace, calls], by simp [fullTrace, calls], ?_, ?_⟩
  · intro hl hc
    simp [fullTrace, calls, constructedModel, hl, hc]
  · intro hl c hc
    simp [fullTrace, calls, constructedModel, hl, hc]

/-- C2 (amended) witness at a concrete environment and argument set. -/
theorem C2_args_passthrough_witness :
    Event.dmInit baseArgs.data_path baseArgs.classify
      ∈ (runMain okEnv baseArgs).1 ∧
    Event.modelCons (Model.exceiverFresh
      (setAttr (varsOf baseArgs) "seq_len" (Value.nat okEnv.n_features)))
      ∈ (runMain okEnv baseArgs).1 :=
  ⟨(C2_args_passthrough okEnv baseArgs (by rfl)).2.1,
   (C2_args_passthrough okEnv baseArgs (by rfl)).2.2.2.2.1 (by rfl) (by rfl)⟩

/-- C8 counterexample: with `--load` supplied as the empty string,
`args.load` is not `None`, yet the script does not restore from a
checkpoint: Python truthiness makes `if args.load:` take the else branch,
and a fresh model is constructed from the argument dictionary. -/
theorem C8_cex :
    emptyLoadArgs.load ≠ Option.none ∧
    (runMain okEnv emptyLoadArgs).2 = Except.ok () ∧
    (runMain okEnv emptyLoadArgs).1.filter Event.isModelCons
      = [Event.modelCons (Model.exceiverFresh
          (setAttr (varsOf emptyLoadArgs) "seq_len" (Value.nat 7)))] ∧
    (constructedModel okEnv emptyLoadArgs).isLoaded = false :=
  ⟨by decide, rfl, by decide, by decide⟩

/-- C8 (amended): whenever `--load` is provided and nonempty (truthy), the
model is restored via `load_from_checkpoint` from that path alone: the
restored value carries only the checkpoint path, its variant is chosen by
`args.classify` alone, and it is independent of the environment (hence of
the computed `seq_len` and `classify_dim`) and of every other argument. -/
theorem C8_load_from_checkpoint (env : Env) (a : Args)
    (h : truthy a.load = true) :
    ∃ p, a.load = some p ∧ p ≠ "" ∧
      constructedModel env a
        = (if a.classify.isNone then Model.exceiverLoaded p
           else Model.classifierLoaded p) ∧
      (∀ env2 a2, a2.load = a.load → a2.classify.isNone = a.classify.isNone →
        constructedModel env2 a2 = constructedModel env a) ∧
      ((runMain env a).2 = Except.ok () →
        Event.modelCons (constructedModel env a) ∈ (runMain env a).1) := by
  cases hl : a.load with
  | none => rw [hl] at h; simp [truthy] at h
  | some p =>
    rw [hl] at h
    have hp : ¬ (p = "") := by simpa [truthy] using h
    refine ⟨p, rfl, hp, ?_, ?_, ?_⟩
    · unfold constructedModel
      cases hc : a.classify <;> simp [hl, hc, truthy, hp]
    · intro env2 a2 h2l h2c
      unfold constructedModel
      cases hc : a.classify with
      | none =>
        cases hck : a2.classify with
        | none => simp [hl, hc, h2l, hck, truthy, hp]
        | some c2 => rw [hck, hc] at h2c; simp at h2c
      | some c =>
        cases hck : a2.classify with
        | none => rw [hck, hc] at h2c; simp at h2c
        | some c2 => simp [hl, hc, h2l, hck, truthy, hp]
    · intro hok
      rw [runMain_ok_trace env a hok]
      simp [fullTrace, calls]

/-- C8 (amended) witness at a concrete environment and argument set. -/
theorem C8_load_from_checkpoint_witness :
    ∃ p, loadArgs.load = some p ∧ p ≠ "" ∧
      constructedModel okEnv loadArgs
        = (if loadArgs.classify.isNone then Model.exceiverLoaded p
           else Model.classifierLoaded p) ∧
      (∀ env2 a2, a2.load = loadArgs.load →
          a2.classify.isNone = loadArgs.classify.isNone →
        constructedModel env2 a2 = constructedModel okEnv loadArgs) ∧
      ((runMain okEnv loadArgs).2 = Except.ok () →
        Event.modelCons (constructedModel okEnv loadArgs)
          ∈ (runMain okEnv loadArgs).1) :=
  C8_load_from_checkpoint okEnv loadArgs (by decide)

/-- C9: the trainer is always constructed with devices = 1, whatever the
strategy argument is; and the strategy value — in particular whether it
equals "ddp", whose conditional has an empty `pass` body — has no effect
on the run: outcome and trace are unchanged under changing the strategy,
except in the two places where the strategy string itself is forwarded
as data (the `Trainer` argument and the `strategy` entry of the argument
dictionary). -/
theorem C9_devices_one_strategy_inert (env : Env) (a : Args) (s s2 : String) :
    ((runMain env a).2 = Except.ok () →
      (runMain env a).1.filter Event.isTrainer
        = [Event.trainerInit a.strategy 1 [earlyStopCB, checkpointCB]
            "simple"]) ∧
    (runMain env { a with strategy := s }).2
      = (runMain env { a with strategy := s2 }).2 ∧
    (runMain env { a with strategy := s }).1.map scrubEvent
      = (runMain env { a with strategy := s2 }).1.map scrubEvent := by
  have hcongr := runCalls_congr env scrubEvent
    (calls env { a with strategy := s }) (calls env { a with strategy := s2 })
    rfl
    (by simp [calls, scrubEvent, theDM, scrubModel_constructedModel env a s s2])
  refine ⟨?_, hcongr.1, ?_⟩
  · intro h
    rw [runMain_ok_trace env a h]
    simp [fullTrace, calls, Event.isTrainer]
  · show (Event.seed 2299
        :: (runCalls env (calls env { a with strategy := s })).1).map scrubEvent
      = (Event.seed 2299
        :: (runCalls env (calls env { a with strategy := s2 })).1).map scrubEvent
    simp only [List.map_cons]
    rw [hcongr.2]

/-- C9 witness at a concrete environment and argument set. -/
theorem C9_devices_one_strategy_inert_witness :
    (runMain okEnv baseArgs).1.filter Event.isTrainer
      = [Event.trainerInit baseArgs.strategy 1 [earlyStopCB, checkpointCB]
          "simple"] :=
  (C9_devices_one_strategy_inert okEnv baseArgs "ddp" "dp").1 (by rfl)

end ExceiverTrain
